import Mathlib

/-!
Verification of the Hyperliquid trading-signal service (main.py).

Prices and sizes are modelled as rationals.  Python float division by
zero is modelled explicitly through an error type, so that fragments
wrapped in try/except blocks can be embedded faithfully.  Python round
(banker rounding) and the %.5g five-significant-digit formatting are
modelled as exact decimal roundings on the rationals.
-/

namespace HLSpec

/-- Python runtime errors that the embedded fragments can raise. -/
inductive PyErr where
  | zeroDivision
deriving DecidableEq, Repr

/-- Python float division: raises ZeroDivisionError when the divisor is zero. -/
def pyDiv (a b : ℚ) : Except PyErr ℚ :=
  if b = 0 then .error .zeroDivision else .ok (a / b)

/-- Round to the nearest integer, ties to the even integer, as Python round does. -/
def roundHalfEven (x : ℚ) : ℤ :=
  if x - ⌊x⌋ < 1/2 then ⌊x⌋
  else if 1/2 < x - ⌊x⌋ then ⌊x⌋ + 1
  else if ⌊x⌋ % 2 = 0 then ⌊x⌋ else ⌊x⌋ + 1

/-- Python round(x, n): round to n decimal places, ties to the even digit. -/
def pyRound (x : ℚ) (n : ℤ) : ℚ :=
  (roundHalfEven (x * 10 ^ n) : ℚ) / 10 ^ n

/-- Floor of the base-10 logarithm of the absolute value of a rational
(0 for input 0).  Computed from the decimal digit counts of the
numerator and denominator, with one correction step. -/
def log10floor (x : ℚ) : ℤ :=
  if x = 0 then 0
  else
    let c : ℤ := (Nat.log 10 x.num.natAbs : ℤ) - (Nat.log 10 x.den : ℤ)
    if (10 : ℚ) ^ c ≤ |x| then c else c - 1

/-- Python float formatting with %.5g: round to five significant decimal
digits, keeping the value exact. -/
def round5g (x : ℚ) : ℚ :=
  pyRound x (4 - log10floor x)

/-- Per-symbol trading specification, as cached by get_asset_specs. -/
structure AssetSpec where
  asset_id : ℕ
  sz_decimals : ℕ
  max_leverage : ℕ
  only_isolated : Bool
deriving DecidableEq, Repr

/-- The market metadata cache: the mapping from symbol to AssetSpec. -/
abbrev AssetSpecs := List (String × AssetSpec)

/-- Python dict lookup on the metadata cache. -/
def lookupSpec : AssetSpecs → String → Option AssetSpec
  | [], _ => none
  | (k, v) :: t, s => if k = s then some v else lookupSpec t s

/-- get_min_order_size from main.py.  The first match is the try body;
the outer match is the except handler, whose own fallback division can
itself raise, in which case the error propagates to the caller. -/
def get_min_order_size (specs : AssetSpecs) (symbol : String)
    (current_price : ℚ) : Except PyErr ℚ :=
  let body : Except PyErr ℚ :=
    match lookupSpec specs symbol with
    | none =>
        match pyDiv 10 current_price with
        | .error e => .error e
        | .ok q => .ok (max q 0.0001)
    | some spec =>
        let min_lot_size : ℚ := 10 ^ (-(spec.sz_decimals : ℤ))
        match pyDiv 10 current_price with
        | .error e => .error e
        | .ok min_size_for_usd => .ok (max min_lot_size min_size_for_usd)
  match body with
  | .ok v => .ok v
  | .error _ =>
      match pyDiv 10 current_price with
      | .error e => .error e
      | .ok q => .ok (max q 0.001)

/-- validate_and_adjust_size from main.py.  Only the embedded
get_min_order_size call can raise inside the try body, and the except
handler returns the unmodified size, so this function never raises. -/
def validate_and_adjust_size (specs : AssetSpecs) (symbol : String)
    (size current_price : ℚ) : ℚ :=
  match get_min_order_size specs symbol current_price with
  | .error _ => size
  | .ok min_size =>
      if size < min_size then min_size * 1.01
      else
        match lookupSpec specs symbol with
        | some spec => pyRound size (spec.sz_decimals : ℤ)
        | none => size

/-- format_price from main.py: five significant digits, then for a cached
symbol a further rounding to (8 for spot asset ids, else 6) minus
sz_decimals decimal places. -/
def format_price (specs : AssetSpecs) (price : ℚ) (symbol : String) : ℚ :=
  let formatted_price := round5g price
  match lookupSpec specs symbol with
  | some spec =>
      let decimals : ℤ := if 10000 ≤ spec.asset_id then 8 else 6
      pyRound formatted_price (decimals - (spec.sz_decimals : ℤ))
  | none => formatted_price

/-- get_market_price from main.py.  The mid argument stands for the
external get_current_price call; Python treats a missing or zero price
as unavailable and returns None. -/
def get_market_price (specs : AssetSpecs) (symbol : String) (mid : Option ℚ)
    (is_buy : Bool) : Option ℚ :=
  match mid with
  | none => none
  | some current_price =>
      if current_price = 0 then none
      else
        let slippage : ℚ := 0.02
        let market_price :=
          if is_buy then current_price * (1 + slippage)
          else current_price * (1 - slippage)
        some (format_price specs market_price symbol)

/-- calculate_position_size from main.py.  The vault balance query is an
input (the total account value when available).  The except handler
recomputes the minimum order size, so an error raised there propagates
out of the function. -/
def calculate_position_size (specs : AssetSpecs) (vault_value : Option ℚ)
    (symbol : String) (current_price : ℚ) (percentage : ℚ) :
    Except PyErr (ℚ × ℚ) :=
  let body : Except PyErr (ℚ × ℚ) :=
    match vault_value with
    | none =>
        match pyDiv 100 current_price with
        | .error e => .error e
        | .ok fallback_size => .ok (100, fallback_size)
    | some total_value =>
        let position_size_usd := total_value * (percentage / 100)
        match get_min_order_size specs symbol current_price with
        | .error e => .error e
        | .ok min_order_size =>
            let min_position_usd := min_order_size * current_price
            let adjusted_usd :=
              if position_size_usd < min_position_usd then min_position_usd * 1.1
              else position_size_usd
            match pyDiv adjusted_usd current_price with
            | .error e => .error e
            | .ok raw_size =>
                let position_size :=
                  validate_and_adjust_size specs symbol raw_size current_price
                .ok (position_size * current_price, position_size)
  match body with
  | .ok v => .ok v
  | .error _ =>
      match (if symbol = "" then Except.ok 0.001
             else get_min_order_size specs symbol current_price) with
      | .error e => .error e
      | .ok min_size =>
          .ok ((if min_size = 0 then 100 else min_size * current_price), min_size)

/-- Reason recorded when the monitor decides to close a position. -/
inductive CloseReason where
  | tp1 | tp2 | sl | maxTime
deriving DecidableEq, Repr

/-- A TrackedPosition as stored in active_positions by receive_signal. -/
structure TrackedPosition where
  symbol : String
  is_buy : Bool
  tp1 : ℚ
  tp2 : ℚ
  sl : ℚ
  max_exit_time : ℤ
  entry_price : ℚ
  order_status : String
deriving DecidableEq, Repr

/-- The exit decision taken by monitor_positions for one tracked position,
given the current price and the current time: the TP1, TP2, SL chain in
priority order for the buy direction (mirrored for the sell direction),
then the unconditional max-exit-time check, which overrides any
price-based reason recorded in the same pass. -/
def exitReason (td : TrackedPosition) (current_price : ℚ) (now : ℤ) :
    Option CloseReason :=
  let price_reason : Option CloseReason :=
    if td.is_buy then
      if td.tp1 ≤ current_price then some .tp1
      else if td.tp2 ≤ current_price then some .tp2
      else if current_price ≤ td.sl then some .sl
      else none
    else
      if current_price ≤ td.tp1 then some .tp1
      else if current_price ≤ td.tp2 then some .tp2
      else if td.sl ≤ current_price then some .sl
      else none
  if td.max_exit_time ≤ now then some .maxTime else price_reason

/-- Outcome of the monitor loop body for one tracked position in one cycle. -/
inductive StepResult where
  | skipped
  | removedExternally
  | closed (reason : CloseReason)
  | closeFailed (reason : CloseReason)
  | kept
deriving DecidableEq, Repr

/-- One iteration of the monitor_positions loop body for one tracked
position.  current_price stands for the get_current_price call (Python
treats both None and zero as unavailable), position_exists for the
get_position call, and close_truthy for the truthiness of the
close_position result. -/
def monitorStep (td : TrackedPosition) (current_price : Option ℚ)
    (position_exists : Bool) (now : ℤ) (close_truthy : Bool) : StepResult :=
  match current_price with
  | none => .skipped
  | some price =>
      if price = 0 then .skipped
      else if position_exists = false then .removedExternally
      else
        match exitReason td price now with
        | some r => if close_truthy then .closed r else .closeFailed r
        | none => .kept

/-- The in-memory position registry active_positions. -/
abbrev Registry := List (String × TrackedPosition)

/-- Python dict insertion: overwrite in place when the key is present. -/
def insertAssoc : Registry → String → TrackedPosition → Registry
  | [], k, v => [(k, v)]
  | (k0, v0) :: t, k, v =>
      if k0 = k then (k, v) :: t else (k0, v0) :: insertAssoc t k v

/-- Python dict lookup on the registry. -/
def lookupAssoc : Registry → String → Option TrackedPosition
  | [], _ => none
  | (k0, v0) :: t, k => if k0 = k then some v0 else lookupAssoc t k

/-- Python del on the registry. -/
def eraseKey : Registry → String → Registry
  | [], _ => []
  | (k0, v0) :: t, k => if k0 = k then t else (k0, v0) :: eraseKey t k

/-- Whether the step deletes the registry entry of the position. -/
def stepRemoves : StepResult → Bool
  | .removedExternally => true
  | .closed _ => true
  | _ => false

/-- The reason under which the step attempted to close the position,
if it attempted one. -/
def triggeredReason : StepResult → Option CloseReason
  | .closed r => some r
  | .closeFailed r => some r
  | _ => none

/-- Effect of one monitor step on the registry. -/
def applyStep (reg : Registry) (signal_id : String) (res : StepResult) :
    Registry :=
  if stepRemoves res then eraseKey reg signal_id else reg

/-- Python str.lower: lowercase each character. -/
def pyLower (s : String) : String := ⟨s.data.map Char.toLower⟩

/-- Python str.upper: uppercase each character. -/
def pyUpper (s : String) : String := ⟨s.data.map Char.toUpper⟩

/-- Signal identifier: symbol, underscore, integer unix timestamp. -/
def mkSignalId (symbol : String) (now : ℤ) : String :=
  symbol ++ "_" ++ toString now

/-- External effects available to the signal route: the fetched mid price,
the vault account value, the status field of the place_order result
(none when order placement returned no result), the risk percentage
from the environment, and the integer unix timestamp. -/
structure SignalEnv where
  fetched_price : Option ℚ
  vault_value : Option ℚ
  order_status : Option String
  risk_percentage : ℚ
  now : ℤ

/-- Observable outcome of the signal route: HTTP status code, whether
place_order was invoked, the signal identifier of a successful request,
and the registry after the request. -/
structure SignalResponse where
  status : ℕ
  order_placed : Bool
  signal_id : Option String
  registry : Registry
deriving DecidableEq, Repr

/-- receive_signal from main.py, starting after JSON field extraction:
direction validation, current price resolution, position sizing, order
placement, and registration of the TrackedPosition. -/
def receive_signal (specs : AssetSpecs) (env : SignalEnv) (reg : Registry)
    (signal_message_raw token_mentioned : String)
    (tp1 tp2 sl current_price_field : ℚ) (max_exit_time : ℤ) :
    SignalResponse :=
  let signal_message := pyLower signal_message_raw
  let symbol := pyUpper token_mentioned
  let is_buy : Bool := signal_message == "buy"
  if signal_message ≠ "buy" ∧ signal_message ≠ "sell" then
    ⟨400, false, none, reg⟩
  else
    let price_resolution : Except ℕ ℚ :=
      if current_price_field = 0 then
        match env.fetched_price with
        | none => .error 400
        | some p => if p = 0 then .error 400 else .ok p
      else .ok current_price_field
    match price_resolution with
    | .error code => ⟨code, false, none, reg⟩
    | .ok current_price =>
        match calculate_position_size specs env.vault_value symbol
            current_price env.risk_percentage with
        | .error _ => ⟨500, false, none, reg⟩
        | .ok _ =>
            match env.order_status with
            | none => ⟨500, true, none, reg⟩
            | some st =>
                if st ≠ "ok" then ⟨500, true, none, reg⟩
                else
                  let signal_id := mkSignalId symbol env.now
                  let td : TrackedPosition :=
                    ⟨symbol, is_buy, tp1, tp2, sl, max_exit_time,
                      current_price, st⟩
                  ⟨200, true, some signal_id, insertAssoc reg signal_id td⟩

/-- A small concrete metadata cache used in the closed evaluation
theorems: two perpetual symbols and one spot symbol. -/
def sampleSpecs : AssetSpecs :=
  [("BTC", ⟨0, 5, 40, false⟩), ("ETH", ⟨1, 4, 25, false⟩),
   ("PURR", ⟨10001, 2, 3, true⟩)]

/-- A concrete tracked buy position used in the closed evaluations. -/
def tdBuy : TrackedPosition :=
  ⟨"BTC", true, 110, 120, 90, 1000, 100, "ok"⟩

/-- A concrete tracked sell position used in the closed evaluations. -/
def tdSell : TrackedPosition :=
  ⟨"ETH", false, 80, 70, 105, 1000, 100, "ok"⟩

/-- A concrete environment in which every external call succeeds. -/
def envOk : SignalEnv :=
  ⟨some 100, some 1000, some "ok", 10, 1700000000⟩

theorem ten_q_ne_zero : (10 : ℚ) ≠ 0 := by norm_num

theorem ten_q_pos : (0 : ℚ) < 10 := by norm_num

theorem roundHalfEven_intCast (k : ℤ) : roundHalfEven (k : ℚ) = k := by
  unfold roundHalfEven
  rw [Int.floor_intCast]
  norm_num

theorem roundHalfEven_le_add_half (x : ℚ) :
    (roundHalfEven x : ℚ) ≤ x + 1/2 := by
  unfold roundHalfEven
  have h1 : (⌊x⌋ : ℚ) ≤ x := Int.floor_le x
  have h2 : x < ⌊x⌋ + 1 := Int.lt_floor_add_one x
  split_ifs with ha hb hc <;> push_cast <;> linarith

theorem sub_half_le_roundHalfEven (x : ℚ) :
    x - 1/2 ≤ (roundHalfEven x : ℚ) := by
  unfold roundHalfEven
  have h1 : (⌊x⌋ : ℚ) ≤ x := Int.floor_le x
  have h2 : x < ⌊x⌋ + 1 := Int.lt_floor_add_one x
  split_ifs with ha hb hc <;> push_cast <;> linarith

theorem abs_roundHalfEven_le (x : ℚ) (B : ℤ) (h : |x| < (B : ℚ)) :
    |roundHalfEven x| ≤ B := by
  have h1 := roundHalfEven_le_add_half x
  have h2 := sub_half_le_roundHalfEven x
  have ha := abs_lt.mp h
  rw [abs_le]
  constructor
  · have hq : (-B : ℚ) < (roundHalfEven x : ℚ) + 1 := by
      have := ha.1
      linarith
    exact Int.lt_add_one_iff.mp (by exact_mod_cast hq)
  · have hq : ((roundHalfEven x : ℤ) : ℚ) < (B : ℚ) + 1 := by
      have := ha.2
      linarith
    exact Int.lt_add_one_iff.mp (by exact_mod_cast hq)

theorem log10floor_spec (x : ℚ) (hx : x ≠ 0) :
    (10 : ℚ) ^ log10floor x ≤ |x| ∧ |x| < (10 : ℚ) ^ (log10floor x + 1) := by
  have hden : (0 : ℚ) < (x.den : ℚ) := by exact_mod_cast x.pos
  have hna : x.num.natAbs ≠ 0 := Int.natAbs_ne_zero.mpr (Rat.num_ne_zero.mpr hx)
  have habs : |x| = (x.num.natAbs : ℚ) / (x.den : ℚ) := by
    conv_lhs => rw [← Rat.num_div_den x]
    rw [abs_div, abs_of_pos hden, ← Int.cast_abs, Int.abs_eq_natAbs,
      Int.cast_natCast]
  have hpowpos : ∀ n : ℕ, (0:ℚ) < 10 ^ n := fun n => pow_pos (by norm_num) n
  have hA1 : ((10:ℚ) ^ Nat.log 10 x.num.natAbs) ≤ (x.num.natAbs : ℚ) := by
    exact_mod_cast Nat.pow_log_le_self 10 hna
  have hA2 : (x.num.natAbs : ℚ) < 10 ^ (Nat.log 10 x.num.natAbs + 1) := by
    exact_mod_cast Nat.lt_pow_succ_log_self (by norm_num) x.num.natAbs
  have hB1 : ((10:ℚ) ^ Nat.log 10 x.den) ≤ (x.den : ℚ) := by
    exact_mod_cast Nat.pow_log_le_self 10 x.pos.ne'
  have hB2 : (x.den : ℚ) < 10 ^ (Nat.log 10 x.den + 1) := by
    exact_mod_cast Nat.lt_pow_succ_log_self (by norm_num) x.den
  have h_up : |x| <
      (10:ℚ) ^ (((Nat.log 10 x.num.natAbs : ℤ) - (Nat.log 10 x.den : ℤ)) + 1) := by
    have hc1 : ((Nat.log 10 x.num.natAbs : ℤ) - (Nat.log 10 x.den : ℤ)) + 1
        = ((Nat.log 10 x.num.natAbs + 1 : ℕ) : ℤ) - ((Nat.log 10 x.den : ℕ) : ℤ) := by
      push_cast
      ring
    rw [habs, hc1, zpow_sub₀ ten_q_ne_zero, zpow_natCast, zpow_natCast,
      div_lt_div_iff₀ hden (hpowpos _)]
    calc (x.num.natAbs : ℚ) * 10 ^ Nat.log 10 x.den
        < 10 ^ (Nat.log 10 x.num.natAbs + 1) * 10 ^ Nat.log 10 x.den :=
          mul_lt_mul_of_pos_right hA2 (hpowpos _)
      _ ≤ 10 ^ (Nat.log 10 x.num.natAbs + 1) * (x.den : ℚ) :=
          mul_le_mul_of_nonneg_left hB1 (le_of_lt (hpowpos _))
  have h_low :
      (10:ℚ) ^ (((Nat.log 10 x.num.natAbs : ℤ) - (Nat.log 10 x.den : ℤ)) - 1)
        ≤ |x| := by
    have hc1 : ((Nat.log 10 x.num.natAbs : ℤ) - (Nat.log 10 x.den : ℤ)) - 1
        = ((Nat.log 10 x.num.natAbs : ℕ) : ℤ) - ((Nat.log 10 x.den + 1 : ℕ) : ℤ) := by
      push_cast
      ring
    rw [habs, hc1, zpow_sub₀ ten_q_ne_zero, zpow_natCast, zpow_natCast,
      div_le_div_iff₀ (hpowpos _) hden]
    refine le_of_lt ?_
    calc (10:ℚ) ^ Nat.log 10 x.num.natAbs * (x.den : ℚ)
        < 10 ^ Nat.log 10 x.num.natAbs * 10 ^ (Nat.log 10 x.den + 1) :=
          mul_lt_mul_of_pos_left hB2 (hpowpos _)
      _ ≤ (x.num.natAbs : ℚ) * 10 ^ (Nat.log 10 x.den + 1) :=
          mul_le_mul_of_nonneg_right hA1 (le_of_lt (hpowpos _))
  simp only [log10floor, if_neg hx]
  split_ifs with h10
  · exact ⟨h10, h_up⟩
  · refine ⟨h_low, ?_⟩
    rw [sub_add_cancel]
    exact lt_of_not_le h10

theorem log10floor_unique (x : ℚ) (e : ℤ) (h1 : (10:ℚ) ^ e ≤ |x|)
    (h2 : |x| < (10:ℚ) ^ (e + 1)) : log10floor x = e := by
  have hx : x ≠ 0 := by
    intro h
    rw [h, abs_zero] at h1
    exact absurd h1 (not_le.mpr (zpow_pos ten_q_pos e))
  obtain ⟨g1, g2⟩ := log10floor_spec x hx
  by_contra hne
  rcases lt_or_gt_of_ne hne with hlt | hgt
  · have hle : (10:ℚ) ^ (log10floor x + 1) ≤ 10 ^ e :=
      zpow_le_zpow_right₀ (by norm_num) (by omega)
    linarith
  · have hle : (10:ℚ) ^ (e + 1) ≤ 10 ^ log10floor x :=
      zpow_le_zpow_right₀ (by norm_num) (by omega)
    linarith

theorem round5g_zero : round5g 0 = 0 := by
  have h0 : roundHalfEven 0 = 0 := by
    simpa using roundHalfEven_intCast 0
  simp [round5g, pyRound, h0]

theorem int_digit_bounds (K : ℤ) (hK : K ≠ 0) :
    (10:ℚ) ^ ((Nat.log 10 K.natAbs : ℕ) : ℤ) ≤ |(K:ℚ)| ∧
    |(K:ℚ)| < (10:ℚ) ^ (((Nat.log 10 K.natAbs : ℕ) : ℤ) + 1) := by
  have hna : K.natAbs ≠ 0 := Int.natAbs_ne_zero.mpr hK
  have habs : |(K:ℚ)| = (K.natAbs : ℚ) := by
    rw [← Int.cast_abs, Int.abs_eq_natAbs, Int.cast_natCast]
  constructor
  · rw [habs, zpow_natCast]
    exact_mod_cast Nat.pow_log_le_self 10 hna
  · rw [habs, show ((Nat.log 10 K.natAbs : ℕ) : ℤ) + 1
        = ((Nat.log 10 K.natAbs + 1 : ℕ) : ℤ) from by push_cast; ring,
      zpow_natCast]
    exact_mod_cast Nat.lt_pow_succ_log_self (by norm_num) K.natAbs

theorem round5g_intMul (K : ℤ) (t : ℤ) (hK : K.natAbs < 10 ^ 5) :
    round5g ((K : ℚ) * (10:ℚ) ^ t) = (K : ℚ) * (10:ℚ) ^ t := by
  rcases eq_or_ne K 0 with hK0 | hK0
  · simp [hK0, round5g_zero]
  · have hpt : (0:ℚ) < (10:ℚ) ^ t := zpow_pos ten_q_pos t
    obtain ⟨hd1, hd2⟩ := int_digit_bounds K hK0
    have hj : Nat.log 10 K.natAbs < 5 :=
      Nat.log_lt_of_lt_pow (Int.natAbs_ne_zero.mpr hK0) hK
    have habsx : |(K:ℚ) * (10:ℚ)^t| = |(K:ℚ)| * (10:ℚ)^t := by
      rw [abs_mul, abs_of_pos hpt]
    have hlog : log10floor ((K:ℚ) * (10:ℚ)^t)
        = ((Nat.log 10 K.natAbs : ℕ) : ℤ) + t := by
      apply log10floor_unique
      · rw [habsx, zpow_add₀ ten_q_ne_zero]
        exact mul_le_mul_of_nonneg_right hd1 (le_of_lt hpt)
      · rw [habsx, show ((Nat.log 10 K.natAbs : ℕ) : ℤ) + t + 1
            = (((Nat.log 10 K.natAbs : ℕ) : ℤ) + 1) + t from by ring,
          zpow_add₀ ten_q_ne_zero]
        exact mul_lt_mul_of_pos_right hd2 hpt
    have key : ((K:ℚ) * (10:ℚ)^t)
          * (10:ℚ) ^ ((4:ℤ) - (((Nat.log 10 K.natAbs : ℕ) : ℤ) + t))
        = ((K * 10 ^ (4 - Nat.log 10 K.natAbs) : ℤ) : ℚ) := by
      have he : t + ((4:ℤ) - (((Nat.log 10 K.natAbs : ℕ) : ℤ) + t))
          = ((4 - Nat.log 10 K.natAbs : ℕ) : ℤ) := by omega
      push_cast
      rw [mul_assoc, ← zpow_add₀ ten_q_ne_zero, he, zpow_natCast]
    unfold round5g pyRound
    rw [hlog, key, roundHalfEven_intCast,
      div_eq_iff (zpow_ne_zero _ ten_q_ne_zero)]
    exact key.symm

theorem round5g_form (x : ℚ) :
    ∃ K t : ℤ, K.natAbs < 10 ^ 5 ∧ round5g x = (K : ℚ) * (10:ℚ) ^ t := by
  rcases eq_or_ne x 0 with hx | hx
  · exact ⟨0, 0, by norm_num, by simp [hx, round5g_zero]⟩
  · obtain ⟨g1, g2⟩ := log10floor_spec x hx
    have hform : round5g x
        = ((roundHalfEven (x * (10:ℚ) ^ ((4:ℤ) - log10floor x)) : ℤ) : ℚ)
          * (10:ℚ) ^ (log10floor x - 4) := by
      unfold round5g pyRound
      rw [div_eq_mul_inv, ← zpow_neg,
        show -((4:ℤ) - log10floor x) = log10floor x - 4 from by ring]
    have hbound : |x * (10:ℚ) ^ ((4:ℤ) - log10floor x)| < ((10 ^ 5 : ℤ) : ℚ) := by
      rw [abs_mul, abs_of_pos (zpow_pos ten_q_pos _)]
      calc |x| * (10:ℚ) ^ ((4:ℤ) - log10floor x)
          < 10 ^ (log10floor x + 1) * (10:ℚ) ^ ((4:ℤ) - log10floor x) :=
            mul_lt_mul_of_pos_right g2 (zpow_pos ten_q_pos _)
        _ = ((10 ^ 5 : ℤ) : ℚ) := by
            rw [← zpow_add₀ ten_q_ne_zero,
              show log10floor x + 1 + ((4:ℤ) - log10floor x) = (5:ℤ) from by ring]
            push_cast
            norm_num
    have hA5 : (roundHalfEven (x * (10:ℚ) ^ ((4:ℤ) - log10floor x))).natAbs
        ≤ 10 ^ 5 := by
      have h1 := abs_roundHalfEven_le _ _ hbound
      rw [Int.abs_eq_natAbs] at h1
      exact_mod_cast h1
    rcases lt_or_eq_of_le hA5 with h5 | h5
    · exact ⟨_, log10floor x - 4, h5, hform⟩
    · have hq : (100000 : ℚ) * (10:ℚ) ^ (log10floor x - 4)
          = (10:ℚ) * (10:ℚ) ^ log10floor x := by
        rw [show (100000 : ℚ) = (10:ℚ) ^ (5:ℤ) from by norm_num,
          ← zpow_add₀ ten_q_ne_zero,
          show (5:ℤ) + (log10floor x - 4) = 1 + log10floor x from by ring,
          zpow_add₀ ten_q_ne_zero, zpow_one]
      rcases Int.natAbs_eq_iff.mp h5 with hA | hA
      · refine ⟨10, log10floor x, by norm_num, ?_⟩
        rw [hform, hA]
        push_cast
        rw [hq]
      · refine ⟨-10, log10floor x, by norm_num, ?_⟩
        rw [hform, hA]
        push_cast
        linear_combination (-1 : ℚ) * hq

theorem pyRound_intMul_form (K t m : ℤ) (hK : K.natAbs < 10 ^ 5) :
    ∃ K2 t2 : ℤ, K2.natAbs < 10 ^ 5 ∧
      pyRound ((K : ℚ) * (10:ℚ) ^ t) m = (K2 : ℚ) * (10:ℚ) ^ t2 := by
  by_cases hc : 0 ≤ t + m
  · refine ⟨K, t, hK, ?_⟩
    have he : t + m = ((t + m).toNat : ℤ) := (Int.toNat_of_nonneg hc).symm
    have key : (K:ℚ) * (10:ℚ)^t * (10:ℚ)^m
        = ((K * 10 ^ (t + m).toNat : ℤ) : ℚ) := by
      push_cast
      rw [mul_assoc, ← zpow_add₀ ten_q_ne_zero, ← zpow_natCast (10:ℚ) (t + m).toNat,
        ← he]
    unfold pyRound
    rw [key, roundHalfEven_intCast, div_eq_iff (zpow_ne_zero _ ten_q_ne_zero)]
    exact key.symm
  · push_neg at hc
    refine ⟨roundHalfEven ((K:ℚ) * (10:ℚ)^t * (10:ℚ)^m), -m, ?_, ?_⟩
    · have hb : |(K:ℚ) * (10:ℚ)^t * (10:ℚ)^m| < ((10 ^ 4 : ℤ) : ℚ) := by
        rw [mul_assoc, abs_mul, ← zpow_add₀ ten_q_ne_zero,
          abs_of_pos (zpow_pos ten_q_pos _)]
        have h1 : |(K:ℚ)| < (10:ℚ) ^ (5:ℕ) := by
          rw [← Int.cast_abs, Int.abs_eq_natAbs]
          exact_mod_cast hK
        have h2 : (10:ℚ) ^ (t + m) ≤ (10:ℚ) ^ (-1 : ℤ) :=
          zpow_le_zpow_right₀ (by norm_num) (by omega)
        calc |(K:ℚ)| * (10:ℚ) ^ (t + m)
            ≤ |(K:ℚ)| * (10:ℚ) ^ (-1 : ℤ) :=
              mul_le_mul_of_nonneg_left h2 (abs_nonneg _)
          _ < (10:ℚ) ^ (5:ℕ) * (10:ℚ) ^ (-1 : ℤ) :=
              mul_lt_mul_of_pos_right h1 (zpow_pos ten_q_pos _)
          _ = ((10 ^ 4 : ℤ) : ℚ) := by
              rw [← zpow_natCast (10:ℚ) 5, ← zpow_add₀ ten_q_ne_zero,
                show ((5:ℕ):ℤ) + (-1 : ℤ) = (4:ℤ) from by norm_num]
              push_cast
              norm_num
      have h3 := abs_roundHalfEven_le _ _ hb
      rw [Int.abs_eq_natAbs] at h3
      have h4 : (roundHalfEven ((K:ℚ) * (10:ℚ)^t * (10:ℚ)^m)).natAbs ≤ 10 ^ 4 := by
        exact_mod_cast h3
      exact lt_of_le_of_lt h4 (by norm_num)
    · unfold pyRound
      rw [div_eq_mul_inv, ← zpow_neg]

theorem pyRound_pyRound (x : ℚ) (n : ℤ) :
    pyRound (pyRound x n) n = pyRound x n := by
  unfold pyRound
  rw [div_mul_cancel₀ _ (zpow_ne_zero _ ten_q_ne_zero), roundHalfEven_intCast]

theorem format_price_of_none (specs : AssetSpecs) (symbol : String) (p : ℚ)
    (h : lookupSpec specs symbol = none) :
    format_price specs p symbol = round5g p := by
  simp [format_price, h]

theorem format_price_of_some (specs : AssetSpecs) (symbol : String) (p : ℚ)
    (spec : AssetSpec) (h : lookupSpec specs symbol = some spec) :
    format_price specs p symbol =
      pyRound (round5g p)
        ((if 10000 ≤ spec.asset_id then (8:ℤ) else 6) - (spec.sz_decimals : ℤ)) := by
  simp [format_price, h]

theorem pyDiv_of_ne_zero (a b : ℚ) (hb : b ≠ 0) : pyDiv a b = .ok (a / b) := by
  simp [pyDiv, hb]

theorem get_min_order_size_of_some (specs : AssetSpecs) (symbol : String)
    (price : ℚ) (spec : AssetSpec) (hp : price ≠ 0)
    (h : lookupSpec specs symbol = some spec) :
    get_min_order_size specs symbol price =
      .ok (max ((10:ℚ) ^ (-(spec.sz_decimals : ℤ))) (10 / price)) := by
  simp [get_min_order_size, h, pyDiv_of_ne_zero _ _ hp]

theorem get_min_order_size_of_none (specs : AssetSpecs) (symbol : String)
    (price : ℚ) (hp : price ≠ 0) (h : lookupSpec specs symbol = none) :
    get_min_order_size specs symbol price = .ok (max (10 / price) 0.0001) := by
  simp [get_min_order_size, h, pyDiv_of_ne_zero _ _ hp]

theorem get_min_order_size_isOk (specs : AssetSpecs) (symbol : String)
    (price : ℚ) (hp : price ≠ 0) :
    ∃ m, get_min_order_size specs symbol price = .ok m := by
  cases h : lookupSpec specs symbol with
  | none => exact ⟨_, get_min_order_size_of_none specs symbol price hp h⟩
  | some spec => exact ⟨_, get_min_order_size_of_some specs symbol price spec hp h⟩

theorem calculate_position_size_no_error (specs : AssetSpecs)
    (vv : Option ℚ) (symbol : String) (price pct : ℚ) (hp : price ≠ 0) :
    ∀ e, calculate_position_size specs vv symbol price pct ≠ .error e := by
  intro e
  cases vv with
  | none => simp [calculate_position_size, pyDiv_of_ne_zero _ _ hp]
  | some total =>
      obtain ⟨m, hm⟩ := get_min_order_size_isOk specs symbol price hp
      simp [calculate_position_size, hm, pyDiv_of_ne_zero _ _ hp]

/-- C2: for a symbol in the metadata cache with size-decimal precision
sz_decimals and positive price, get_min_order_size returns exactly the
maximum of 10 to the power of minus sz_decimals and 10 divided by the
price; for a symbol absent from the cache it returns the maximum of 10
divided by the price and 0.0001. -/
theorem c2_min_order_size (specs : AssetSpecs) (symbol : String) (price : ℚ)
    (hp : 0 < price) :
    (∀ spec, lookupSpec specs symbol = some spec →
        get_min_order_size specs symbol price =
          .ok (max ((10:ℚ) ^ (-(spec.sz_decimals : ℤ))) (10 / price)))
  ∧ (lookupSpec specs symbol = none →
        get_min_order_size specs symbol price = .ok (max (10 / price) 0.0001)) :=
  ⟨fun spec h => get_min_order_size_of_some specs symbol price spec hp.ne' h,
   fun h => get_min_order_size_of_none specs symbol price hp.ne' h⟩

theorem c2_min_order_size_witness :
    (0:ℚ) < 100
  ∧ get_min_order_size sampleSpecs "BTC" 100
      = .ok (max ((10:ℚ) ^ (-(5:ℤ))) (10 / 100))
  ∧ get_min_order_size sampleSpecs "DOGE" 100
      = .ok (max ((10:ℚ) / 100) 0.0001) := by
  refine ⟨by norm_num, ?_, ?_⟩
  · exact (c2_min_order_size sampleSpecs "BTC" 100 (by norm_num)).1
      ⟨0, 5, 40, false⟩ rfl
  · exact (c2_min_order_size sampleSpecs "DOGE" 100 (by norm_num)).2 rfl

/-- C3: given that get_min_order_size returns m, validate_and_adjust_size
returns m times 1.01 when the size is below m, and otherwise returns the
size rounded to sz_decimals decimal places for a cached symbol and the
size unchanged for an unknown symbol. -/
theorem c3_validate_and_adjust (specs : AssetSpecs) (symbol : String)
    (size price m : ℚ)
    (hm : get_min_order_size specs symbol price = .ok m) :
    (size < m → validate_and_adjust_size specs symbol size price = m * 1.01)
  ∧ (¬ size < m → ∀ spec, lookupSpec specs symbol = some spec →
        validate_and_adjust_size specs symbol size price =
          pyRound size (spec.sz_decimals : ℤ))
  ∧ (¬ size < m → lookupSpec specs symbol = none →
        validate_and_adjust_size specs symbol size price = size) := by
  refine ⟨?_, ?_, ?_⟩
  · intro h
    simp [validate_and_adjust_size, hm, if_pos h]
  · intro h spec hspec
    simp [validate_and_adjust_size, hm, if_neg h, hspec]
  · intro h hnone
    simp [validate_and_adjust_size, hm, if_neg h, hnone]

theorem c3_validate_and_adjust_witness :
    validate_and_adjust_size sampleSpecs "BTC" 0.05 100 = (1/10) * 1.01
  ∧ validate_and_adjust_size sampleSpecs "BTC" 0.123456 100
      = pyRound 0.123456 5
  ∧ validate_and_adjust_size sampleSpecs "DOGE" 0.2 100 = 0.2 := by
  have hbtc : get_min_order_size sampleSpecs "BTC" 100 = .ok (1/10) := by
    rw [get_min_order_size_of_some sampleSpecs "BTC" 100 ⟨0, 5, 40, false⟩
      (by norm_num) rfl]
    norm_num
  have hdoge : get_min_order_size sampleSpecs "DOGE" 100 = .ok (1/10) := by
    rw [get_min_order_size_of_none sampleSpecs "DOGE" 100 (by norm_num) rfl]
    norm_num
  refine ⟨?_, ?_, ?_⟩
  · exact (c3_validate_and_adjust sampleSpecs "BTC" 0.05 100 (1/10) hbtc).1
      (by norm_num)
  · exact (c3_validate_and_adjust sampleSpecs "BTC" 0.123456 100 (1/10) hbtc).2.1
      (by norm_num) ⟨0, 5, 40, false⟩ rfl
  · exact (c3_validate_and_adjust sampleSpecs "DOGE" 0.2 100 (1/10) hdoge).2.2
      (by norm_num) rfl

/-- C4: the never-raise policy of the sizing and pricing layer fails at
price zero: the conservative fallback of get_min_order_size divides by
the zero price again, so the ZeroDivisionError propagates to the caller,
and calculate_position_size then propagates it as well (with or without
a vault balance), while validate_and_adjust_size, format_price and
get_market_price still return values at price zero. -/
theorem c4_sizing_zero_price_raises :
    get_min_order_size sampleSpecs "BTC" 0 = .error .zeroDivision
  ∧ get_min_order_size sampleSpecs "DOGE" 0 = .error .zeroDivision
  ∧ calculate_position_size sampleSpecs none "BTC" 0 10 = .error .zeroDivision
  ∧ calculate_position_size sampleSpecs (some 1000) "BTC" 0 10
      = .error .zeroDivision
  ∧ validate_and_adjust_size sampleSpecs "BTC" 5 0 = 5
  ∧ format_price sampleSpecs 0 "BTC" = 0
  ∧ get_market_price sampleSpecs "BTC" (some 0) true = none := by
  refine ⟨rfl, rfl, rfl, rfl, rfl, ?_, rfl⟩
  rw [format_price_of_some sampleSpecs "BTC" 0 ⟨0, 5, 40, false⟩ rfl,
    round5g_zero]
  simp [pyRound]
  have h0 : roundHalfEven 0 = 0 := by simpa using roundHalfEven_intCast 0
  simp [h0]

/-- C6: format_price applies five-significant-digit rounding first and
then, for a cached symbol, rounds to 6 minus sz_decimals decimal places
when the asset id is below 10000 (perpetual) and to 8 minus sz_decimals
places when the asset id is at least 10000 (spot); for an unknown symbol
only the significant-digit rounding applies. -/
theorem c6_format_price_stages (specs : AssetSpecs) (symbol : String) (p : ℚ) :
    (∀ spec, lookupSpec specs symbol = some spec → spec.asset_id < 10000 →
        format_price specs p symbol =
          pyRound (round5g p) (6 - (spec.sz_decimals : ℤ)))
  ∧ (∀ spec, lookupSpec specs symbol = some spec → 10000 ≤ spec.asset_id →
        format_price specs p symbol =
          pyRound (round5g p) (8 - (spec.sz_decimals : ℤ)))
  ∧ (lookupSpec specs symbol = none →
        format_price specs p symbol = round5g p) := by
  refine ⟨?_, ?_, ?_⟩
  · intro spec h hid
    rw [format_price_of_some specs symbol p spec h, if_neg (not_le.mpr hid)]
  · intro spec h hid
    rw [format_price_of_some specs symbol p spec h, if_pos hid]
  · intro h
    exact format_price_of_none specs symbol p h

theorem c6_format_price_stages_witness :
    format_price sampleSpecs 123.456789 "BTC"
      = pyRound (round5g 123.456789) (6 - (5:ℤ))
  ∧ format_price sampleSpecs 123.456789 "PURR"
      = pyRound (round5g 123.456789) (8 - (2:ℤ))
  ∧ format_price sampleSpecs 123.456789 "DOGE" = round5g 123.456789 := by
  refine ⟨?_, ?_, ?_⟩
  · exact (c6_format_price_stages sampleSpecs "BTC" 123.456789).1
      ⟨0, 5, 40, false⟩ rfl (by norm_num)
  · exact (c6_format_price_stages sampleSpecs "PURR" 123.456789).2.1
      ⟨10001, 2, 3, true⟩ rfl (by norm_num)
  · exact (c6_format_price_stages sampleSpecs "DOGE" 123.456789).2.2 rfl

/-- C7: format_price is idempotent: applying it twice to any price, for
any symbol and any metadata cache, yields the same value as applying it
once. -/
theorem c7_format_price_idempotent (specs : AssetSpecs) (symbol : String)
    (p : ℚ) :
    format_price specs (format_price specs p symbol) symbol =
      format_price specs p symbol := by
  cases h : lookupSpec specs symbol with
  | none =>
      rw [format_price_of_none specs symbol p h,
        format_price_of_none specs symbol (round5g p) h]
      obtain ⟨K, t, hK, hEq⟩ := round5g_form p
      rw [hEq, round5g_intMul K t hK]
  | some spec =>
      rw [format_price_of_some specs symbol p spec h]
      rw [format_price_of_some specs symbol _ spec h]
      obtain ⟨K, t, hK, hEq⟩ := round5g_form p
      obtain ⟨K2, t2, hK2, hEq2⟩ := pyRound_intMul_form K t
        ((if 10000 ≤ spec.asset_id then (8:ℤ) else 6) - (spec.sz_decimals : ℤ)) hK
      rw [hEq, hEq2, round5g_intMul K2 t2 hK2, ← hEq2, pyRound_pyRound]

theorem lookupAssoc_eq_none_of_not_mem (reg : Registry) (k : String)
    (h : k ∉ reg.map Prod.fst) : lookupAssoc reg k = none := by
  induction reg with
  | nil => rfl
  | cons hd tl ih =>
      obtain ⟨k0, v0⟩ := hd
      simp only [List.map_cons, List.mem_cons, not_or] at h
      have hne : k0 ≠ k := fun he => h.1 he.symm
      simp only [lookupAssoc, if_neg hne]
      exact ih h.2

theorem lookupAssoc_eraseKey_self (reg : Registry) (k : String)
    (h : (reg.map Prod.fst).Nodup) : lookupAssoc (eraseKey reg k) k = none := by
  induction reg with
  | nil => rfl
  | cons hd tl ih =>
      obtain ⟨k0, v0⟩ := hd
      simp only [List.map_cons, List.nodup_cons] at h
      by_cases he : k0 = k
      · simp only [eraseKey, if_pos he]
        subst he
        exact lookupAssoc_eq_none_of_not_mem tl k0 h.1
      · simp only [eraseKey, if_neg he, lookupAssoc, if_neg he]
        exact ih h.2

theorem lookupAssoc_insertAssoc_self (reg : Registry) (k : String)
    (v : TrackedPosition) : lookupAssoc (insertAssoc reg k v) k = some v := by
  induction reg with
  | nil => simp [insertAssoc, lookupAssoc]
  | cons hd tl ih =>
      obtain ⟨k0, v0⟩ := hd
      by_cases h : k0 = k
      · simp [insertAssoc, lookupAssoc, h]
      · simp [insertAssoc, lookupAssoc, h, ih]

theorem insertAssoc_insertAssoc (reg : Registry) (k : String)
    (v1 v2 : TrackedPosition) :
    insertAssoc (insertAssoc reg k v1) k v2 = insertAssoc reg k v2 := by
  induction reg with
  | nil => simp [insertAssoc]
  | cons hd tl ih =>
      obtain ⟨k0, v0⟩ := hd
      by_cases h : k0 = k
      · simp [insertAssoc, h]
      · simp [insertAssoc, h, ih]

/-- C1: in a cycle where a price is available and the live position
exists, the monitor triggers a close exactly under the recorded exit
reason: the TP1, TP2, SL chain in priority order per direction, with the
max-exit-time check evaluated unconditionally afterwards, overriding any
price-based reason matched in the same cycle; when no condition holds
the position is kept with no close attempt. -/
theorem c1_exit_evaluation (td : TrackedPosition) (p : ℚ) (now : ℤ)
    (ct : Bool) (hp : p ≠ 0) :
    triggeredReason (monitorStep td (some p) true now ct) = exitReason td p now
  ∧ (exitReason td p now = none → monitorStep td (some p) true now ct = .kept)
  ∧ (td.max_exit_time ≤ now → exitReason td p now = some .maxTime)
  ∧ (¬ td.max_exit_time ≤ now →
      (td.is_buy = true →
          (td.tp1 ≤ p → exitReason td p now = some .tp1)
        ∧ (p < td.tp1 → td.tp2 ≤ p → exitReason td p now = some .tp2)
        ∧ (p < td.tp1 → p < td.tp2 → p ≤ td.sl →
            exitReason td p now = some .sl)
        ∧ (p < td.tp1 → p < td.tp2 → td.sl < p → exitReason td p now = none))
    ∧ (td.is_buy = false →
          (p ≤ td.tp1 → exitReason td p now = some .tp1)
        ∧ (td.tp1 < p → p ≤ td.tp2 → exitReason td p now = some .tp2)
        ∧ (td.tp1 < p → td.tp2 < p → td.sl ≤ p →
            exitReason td p now = some .sl)
        ∧ (td.tp1 < p → td.tp2 < p → p < td.sl →
            exitReason td p now = none))) := by
  have hstep : monitorStep td (some p) true now ct
      = match exitReason td p now with
        | some r => if ct then .closed r else .closeFailed r
        | none => .kept := by
    simp [monitorStep, hp]
  refine ⟨?_, ?_, ?_, ?_⟩
  · rw [hstep]
    cases h : exitReason td p now <;> cases ct <;> simp [triggeredReason]
  · intro h
    rw [hstep, h]
  · intro h
    simp [exitReason, h]
  · intro h
    constructor
    · intro hb
      refine ⟨?_, ?_, ?_, ?_⟩
      · intro h1
        simp [exitReason, h, hb, h1]
      · intro h1 h2
        simp [exitReason, h, hb, h2, not_le.mpr h1]
      · intro h1 h2 h3
        simp [exitReason, h, hb, h3, not_le.mpr h1, not_le.mpr h2]
      · intro h1 h2 h3
        simp [exitReason, h, hb, not_le.mpr h1, not_le.mpr h2, not_le.mpr h3]
    · intro hb
      refine ⟨?_, ?_, ?_, ?_⟩
      · intro h1
        simp [exitReason, h, hb, h1]
      · intro h1 h2
        simp [exitReason, h, hb, h2, not_le.mpr h1]
      · intro h1 h2 h3
        simp [exitReason, h, hb, h3, not_le.mpr h1, not_le.mpr h2]
      · intro h1 h2 h3
        simp [exitReason, h, hb, not_le.mpr h1, not_le.mpr h2, not_le.mpr h3]

theorem c1_exit_evaluation_witness :
    triggeredReason (monitorStep tdBuy (some 111) true 500 true)
      = some CloseReason.tp1
  ∧ exitReason tdBuy 89 500 = some CloseReason.sl
  ∧ exitReason tdBuy 100 1200 = some CloseReason.maxTime := by
  have h111 := c1_exit_evaluation tdBuy 111 500 true (by norm_num)
  have h89 := c1_exit_evaluation tdBuy 89 500 true (by norm_num)
  have h1200 := c1_exit_evaluation tdBuy 100 1200 true (by norm_num)
  refine ⟨?_, ?_, ?_⟩
  · rw [h111.1]
    exact ((h111.2.2.2 (by decide)).1 rfl).1 (by decide)
  · exact ((h89.2.2.2 (by decide)).1 rfl).2.2.1 (by decide) (by decide)
      (by decide)
  · exact h1200.2.2.1 (by decide)

/-- C5: when an exit condition holds the monitor attempts a close, and
the registry entry is removed precisely when close_position returns a
truthy result; a failed close leaves the registry unchanged, so the
close is retried on the next cycle. -/
theorem c5_close_removal (td : TrackedPosition) (p : ℚ) (now : ℤ)
    (r : CloseReason) (reg : Registry) (sid : String) (ct : Bool)
    (hp : p ≠ 0) (hr : exitReason td p now = some r) :
    monitorStep td (some p) true now ct
      = (if ct then .closed r else .closeFailed r)
  ∧ stepRemoves (monitorStep td (some p) true now ct) = ct
  ∧ (ct = false → applyStep reg sid (monitorStep td (some p) true now ct) = reg)
  ∧ (ct = true →
      applyStep reg sid (monitorStep td (some p) true now ct)
        = eraseKey reg sid)
  ∧ ((reg.map Prod.fst).Nodup →
      lookupAssoc (eraseKey reg sid) sid = none) := by
  have hstep : monitorStep td (some p) true now ct
      = if ct then .closed r else .closeFailed r := by
    simp [monitorStep, hp, hr]
  refine ⟨hstep, ?_, ?_, ?_, ?_⟩
  · rw [hstep]
    cases ct <;> simp [stepRemoves]
  · intro h
    rw [hstep, h]
    simp [applyStep, stepRemoves]
  · intro h
    rw [hstep, h]
    simp [applyStep, stepRemoves]
  · exact fun h => lookupAssoc_eraseKey_self reg sid h

theorem c5_close_removal_witness :
    monitorStep tdBuy (some 111) true 500 false = .closeFailed .tp1
  ∧ applyStep [("BTC_1", tdBuy)] "BTC_1"
      (monitorStep tdBuy (some 111) true 500 false) = [("BTC_1", tdBuy)]
  ∧ monitorStep tdBuy (some 111) true 500 true = .closed .tp1
  ∧ applyStep [("BTC_1", tdBuy)] "BTC_1"
      (monitorStep tdBuy (some 111) true 500 true) = [] := by
  have hr : exitReason tdBuy 111 500 = some .tp1 := by decide
  have hf := c5_close_removal tdBuy 111 500 .tp1 [("BTC_1", tdBuy)] "BTC_1"
    false (by norm_num) hr
  have ht := c5_close_removal tdBuy 111 500 .tp1 [("BTC_1", tdBuy)] "BTC_1"
    true (by norm_num) hr
  refine ⟨?_, hf.2.2.1 rfl, ?_, ?_⟩
  · simpa using hf.1
  · simpa using ht.1
  · rw [ht.2.2.2.1 rfl]
    rfl

theorem exitReason_ne_tp2 (td : TrackedPosition) (q : ℚ) (now : ℤ) :
    (td.is_buy = true → td.tp1 ≤ td.tp2 → exitReason td q now ≠ some .tp2) ∧
    (td.is_buy = false → td.tp2 ≤ td.tp1 → exitReason td q now ≠ some .tp2) := by
  constructor
  · intro hb h12 hcon
    unfold exitReason at hcon
    rw [hb] at hcon
    by_cases ht : td.max_exit_time ≤ now
    · simp [ht] at hcon
    · by_cases h1 : td.tp1 ≤ q
      · simp [ht, h1] at hcon
      · by_cases h2 : td.tp2 ≤ q
        · exact h1 (le_trans h12 h2)
        · by_cases h3 : q ≤ td.sl <;> simp [ht, h1, h2, h3] at hcon
  · intro hb h12 hcon
    unfold exitReason at hcon
    rw [hb] at hcon
    by_cases ht : td.max_exit_time ≤ now
    · simp [ht] at hcon
    · by_cases h1 : q ≤ td.tp1
      · simp [ht, h1] at hcon
      · by_cases h2 : q ≤ td.tp2
        · exact h1 (le_trans h2 h12)
        · by_cases h3 : td.sl ≤ q <;> simp [ht, h1, h2, h3] at hcon

theorem triggeredReason_monitorStep (td : TrackedPosition) (cp : Option ℚ)
    (pe : Bool) (now : ℤ) (ct : Bool) :
    triggeredReason (monitorStep td cp pe now ct) = none ∨
    ∃ q : ℚ, triggeredReason (monitorStep td cp pe now ct)
      = exitReason td q now := by
  cases cp with
  | none => exact Or.inl rfl
  | some q =>
      by_cases hq : q = 0
      · exact Or.inl (by simp [monitorStep, hq, triggeredReason])
      · cases pe
        · exact Or.inl (by simp [monitorStep, hq, triggeredReason])
        · refine Or.inr ⟨q, ?_⟩
          cases hr : exitReason td q now <;> cases ct <;>
            simp [monitorStep, hq, hr, triggeredReason]

/-- C9: a buy position whose TP1 is at or below its TP2 can never have
the TP2 exit reason recorded, because any price at or above TP2 also
satisfies the TP1 branch, which is checked first; symmetrically for a
sell position whose TP1 is at or above its TP2. -/
theorem c9_tp2_shadowed (td : TrackedPosition) (p : ℚ) (now : ℤ)
    (cp : Option ℚ) (pe ct : Bool) :
    (td.is_buy = true → td.tp1 ≤ td.tp2 →
        exitReason td p now ≠ some .tp2
      ∧ triggeredReason (monitorStep td cp pe now ct) ≠ some .tp2)
  ∧ (td.is_buy = false → td.tp2 ≤ td.tp1 →
        exitReason td p now ≠ some .tp2
      ∧ triggeredReason (monitorStep td cp pe now ct) ≠ some .tp2) := by
  constructor
  · intro hb h12
    refine ⟨(exitReason_ne_tp2 td p now).1 hb h12, ?_⟩
    rcases triggeredReason_monitorStep td cp pe now ct with h | ⟨q, h⟩
    · rw [h]
      simp
    · rw [h]
      exact (exitReason_ne_tp2 td q now).1 hb h12
  · intro hb h12
    refine ⟨(exitReason_ne_tp2 td p now).2 hb h12, ?_⟩
    rcases triggeredReason_monitorStep td cp pe now ct with h | ⟨q, h⟩
    · rw [h]
      simp
    · rw [h]
      exact (exitReason_ne_tp2 td q now).2 hb h12

theorem c9_tp2_shadowed_witness :
    (exitReason tdBuy 125 500 ≠ some CloseReason.tp2
      ∧ triggeredReason (monitorStep tdBuy (some 125) true 500 true)
          ≠ some CloseReason.tp2)
  ∧ (exitReason tdSell 60 500 ≠ some CloseReason.tp2
      ∧ triggeredReason (monitorStep tdSell (some 60) true 500 true)
          ≠ some CloseReason.tp2) :=
  ⟨(c9_tp2_shadowed tdBuy 125 500 (some 125) true true).1 rfl (by decide),
   (c9_tp2_shadowed tdSell 60 500 (some 60) true true).2 rfl (by decide)⟩

theorem receive_signal_rejected (specs : AssetSpecs) (env : SignalEnv)
    (reg : Registry) (msg tok : String) (tp1 tp2 sl cp : ℚ) (met : ℤ)
    (h1 : (pyLower msg) ≠ "buy") (h2 : (pyLower msg) ≠ "sell") :
    receive_signal specs env reg msg tok tp1 tp2 sl cp met
      = ⟨400, false, none, reg⟩ := by
  simp only [receive_signal, if_pos (And.intro h1 h2)]

theorem receive_signal_success (specs : AssetSpecs) (env : SignalEnv)
    (reg : Registry) (msg tok : String) (tp1 tp2 sl cp : ℚ) (met : ℤ)
    (hmsg : (pyLower msg) = "buy" ∨ (pyLower msg) = "sell")
    (hcp : cp ≠ 0) (hord : env.order_status = some "ok") :
    receive_signal specs env reg msg tok tp1 tp2 sl cp met =
      ⟨200, true, some (mkSignalId (pyUpper tok) env.now),
        insertAssoc reg (mkSignalId (pyUpper tok) env.now)
          ⟨(pyUpper tok), (pyLower msg) == "buy", tp1, tp2, sl, met, cp, "ok"⟩⟩ := by
  have hnotrej : ¬ ((pyLower msg) ≠ "buy" ∧ (pyLower msg) ≠ "sell") := by
    rcases hmsg with h | h <;> simp [h]
  simp only [receive_signal, if_neg hnotrej, if_neg hcp, hord]
  cases hcalc : calculate_position_size specs env.vault_value (pyUpper tok) cp
      env.risk_percentage with
  | error e =>
      exact absurd hcalc (calculate_position_size_no_error specs
        env.vault_value (pyUpper tok) cp env.risk_percentage hcp e)
  | ok v => simp

/-- C8: a signal whose Signal Message field lowercases to buy or sell is
accepted and treated as that direction; any other message is rejected
with HTTP 400 before any order is placed, and the registry is left
unchanged. -/
theorem c8_direction_validation (specs : AssetSpecs) (env : SignalEnv)
    (reg : Registry) (msg tok : String) (tp1 tp2 sl cp : ℚ) (met : ℤ)
    (hcp : cp ≠ 0) (hord : env.order_status = some "ok") :
    ((pyLower msg) ≠ "buy" → (pyLower msg) ≠ "sell" →
        receive_signal specs env reg msg tok tp1 tp2 sl cp met
          = ⟨400, false, none, reg⟩)
  ∧ ((pyLower msg) = "buy" ∨ (pyLower msg) = "sell" →
        (receive_signal specs env reg msg tok tp1 tp2 sl cp met).status = 200
      ∧ (receive_signal specs env reg msg tok tp1 tp2 sl cp met).order_placed
          = true
      ∧ lookupAssoc
            (receive_signal specs env reg msg tok tp1 tp2 sl cp met).registry
            (mkSignalId (pyUpper tok) env.now)
          = some ⟨(pyUpper tok), (pyLower msg) == "buy", tp1, tp2, sl, met, cp,
              "ok"⟩) := by
  constructor
  · intro h1 h2
    exact receive_signal_rejected specs env reg msg tok tp1 tp2 sl cp met h1 h2
  · intro hmsg
    rw [receive_signal_success specs env reg msg tok tp1 tp2 sl cp met hmsg
      hcp hord]
    exact ⟨rfl, rfl, lookupAssoc_insertAssoc_self reg _ _⟩

theorem c8_direction_validation_witness :
    ((receive_signal sampleSpecs envOk [] "Buy" "btc" 110 120 90 100
        1000).status = 200
      ∧ (receive_signal sampleSpecs envOk [] "Buy" "btc" 110 120 90 100
          1000).order_placed = true
      ∧ lookupAssoc (receive_signal sampleSpecs envOk [] "Buy" "btc" 110 120
            90 100 1000).registry (mkSignalId (pyUpper "btc") envOk.now)
          = some ⟨(pyUpper "btc"), pyLower "Buy" == "buy", 110, 120, 90, 1000,
              100, "ok"⟩)
  ∧ receive_signal sampleSpecs envOk [] "hold" "BTC" 110 120 90 100 1000
      = ⟨400, false, none, []⟩ :=
  ⟨(c8_direction_validation sampleSpecs envOk [] "Buy" "btc" 110 120 90 100
      1000 (by norm_num) rfl).2 (Or.inl (by decide)),
   (c8_direction_validation sampleSpecs envOk [] "hold" "BTC" 110 120 90 100
      1000 (by norm_num) rfl).1 (by decide) (by decide)⟩

/-- C10: two signals for the same symbol both processed successfully with
the same integer unix timestamp generate equal signal identifiers, so
the second registration overwrites the first TrackedPosition: the final
registry is a single insertion of the second position into the original
registry, and the identifier now maps to the second position. -/
theorem c10_same_second_overwrite (specs : AssetSpecs) (env1 env2 : SignalEnv)
    (reg : Registry) (msg1 msg2 tok : String)
    (tpa1 tpb1 sla cpa : ℚ) (meta1 : ℤ) (tpa2 tpb2 slb cpb : ℚ) (meta2 : ℤ)
    (h1 : (pyLower msg1) = "buy" ∨ (pyLower msg1) = "sell") (hcp1 : cpa ≠ 0)
    (ho1 : env1.order_status = some "ok")
    (h2 : (pyLower msg2) = "buy" ∨ (pyLower msg2) = "sell") (hcp2 : cpb ≠ 0)
    (ho2 : env2.order_status = some "ok")
    (hnow : env1.now = env2.now) :
    (receive_signal specs env1 reg msg1 tok tpa1 tpb1 sla cpa meta1).signal_id
      = (receive_signal specs env2
          (receive_signal specs env1 reg msg1 tok tpa1 tpb1 sla cpa
            meta1).registry
          msg2 tok tpa2 tpb2 slb cpb meta2).signal_id
  ∧ (receive_signal specs env2
        (receive_signal specs env1 reg msg1 tok tpa1 tpb1 sla cpa
          meta1).registry
        msg2 tok tpa2 tpb2 slb cpb meta2).registry
      = insertAssoc reg (mkSignalId (pyUpper tok) env2.now)
          ⟨(pyUpper tok), (pyLower msg2) == "buy", tpa2, tpb2, slb, meta2, cpb,
            "ok"⟩
  ∧ lookupAssoc (receive_signal specs env2
        (receive_signal specs env1 reg msg1 tok tpa1 tpb1 sla cpa
          meta1).registry
        msg2 tok tpa2 tpb2 slb cpb meta2).registry
        (mkSignalId (pyUpper tok) env1.now)
      = some ⟨(pyUpper tok), (pyLower msg2) == "buy", tpa2, tpb2, slb, meta2, cpb,
          "ok"⟩ := by
  rw [receive_signal_success specs env1 reg msg1 tok tpa1 tpb1 sla cpa meta1
      h1 hcp1 ho1,
    receive_signal_success specs env2 _ msg2 tok tpa2 tpb2 slb cpb meta2
      h2 hcp2 ho2]
  rw [hnow]
  refine ⟨rfl, ?_, ?_⟩
  · exact insertAssoc_insertAssoc reg (mkSignalId (pyUpper tok) env2.now) _ _
  · rw [insertAssoc_insertAssoc reg (mkSignalId (pyUpper tok) env2.now) _ _]
    exact lookupAssoc_insertAssoc_self reg _ _

theorem c10_same_second_overwrite_witness :
    (receive_signal sampleSpecs envOk [] "buy" "BTC" 110 120 90 100
        1000).signal_id
      = (receive_signal sampleSpecs envOk
          (receive_signal sampleSpecs envOk [] "buy" "BTC" 110 120 90 100
            1000).registry
          "sell" "BTC" 95 85 105 100 2000).signal_id
  ∧ (receive_signal sampleSpecs envOk
        (receive_signal sampleSpecs envOk [] "buy" "BTC" 110 120 90 100
          1000).registry
        "sell" "BTC" 95 85 105 100 2000).registry
      = insertAssoc [] (mkSignalId (pyUpper "BTC") envOk.now)
          ⟨(pyUpper "BTC"), pyLower "sell" == "buy", 95, 85, 105, 2000, 100,
            "ok"⟩
  ∧ lookupAssoc (receive_signal sampleSpecs envOk
        (receive_signal sampleSpecs envOk [] "buy" "BTC" 110 120 90 100
          1000).registry
        "sell" "BTC" 95 85 105 100 2000).registry
        (mkSignalId (pyUpper "BTC") envOk.now)
      = some ⟨(pyUpper "BTC"), pyLower "sell" == "buy", 95, 85, 105, 2000, 100,
          "ok"⟩ :=
  c10_same_second_overwrite sampleSpecs envOk envOk [] "buy" "sell" "BTC"
    110 120 90 100 1000 95 85 105 100 2000
    (Or.inl (by decide)) (by norm_num) rfl
    (Or.inr (by decide)) (by norm_num) rfl rfl

end HLSpec
